import Mathlib

/-!
Shallow embedding of the `crete` crate: a proc-macro that, for a struct with
named fields, generates per-field selector types (the `Field` trait and one
unit struct per field) and a process-wide store with two variants:

* copy-on-write (chosen when the struct is `Clone`): a `RwLock<Arc<S>>`;
  `read` clones the `Arc`, `write` swaps in a fresh `Arc`, and `set`/`update`
  go through `Arc::make_mut` (mutate in place when the snapshot is uniquely
  owned, otherwise clone the snapshot into a fresh allocation and commit it);
* in-place (otherwise): an `Arc<RwLock<S>>` mutated directly under the lock.

The copy-on-write cell is modelled with an explicit heap of snapshot values
addressed by `Nat`: the heap is append-only (deallocation of a snapshot whose
reference count reaches zero is unobservable, since no operation ever
dereferences a dead address, so it is not modelled).  The strong count of the
`Arc` at address `a` is derived, not stored: it is the number of live `read`
results holding `a` plus one if the lock slot currently holds `a`.
-/

set_option autoImplicit false

namespace Crete

universe u v

/-- Representative state object with named fields, taken from the spec's
scenario: `count : integer`, `label : text`, with Rust's `Default` values. -/
structure Scenario where
  count : Int
  label : String
deriving Repr, DecidableEq

instance : Inhabited Scenario := ⟨⟨0, ""⟩⟩

/-- Rust `Default::default()` for `Scenario`: `i64` defaults to 0, `String`
to the empty string. -/
def Scenario.default : Scenario := ⟨0, ""⟩

/-- Generated `new()` constructor: `fn new() -> Self { Self::default() }`. -/
def Scenario.new : Scenario := Scenario.default

/-- The generated `Field` trait: a selector for a field of value type `τ`
inside a state object `σ`, with `select` (read-only projection) and `set`
(assignment of that one field). -/
structure Field (σ : Type u) (τ : Type v) where
  select : σ → τ
  set : σ → τ → σ

/-- Generated unit struct `CountField` for the `count` field:
`select` returns `&store.count`, `set` does `store.count = value`. -/
def CountField : Field Scenario Int where
  select := fun s => s.count
  set := fun s v => { s with count := v }

/-- Generated unit struct `LabelField` for the `label` field:
`select` returns `&store.label`, `set` does `store.label = value`. -/
def LabelField : Field Scenario String where
  select := fun s => s.label
  set := fun s v => { s with label := v }

/-- Generated instance method `select_ref`: `field.select(self)`. -/
def select_ref {σ : Type u} {τ : Type v} (s : σ) (F : Field σ τ) : τ :=
  F.select s

/-! ### Copy-on-write store cell (`static RwLock<Arc<S>>`) -/

/-- State of a copy-on-write cell: `heap` maps snapshot addresses to values,
`store` is the address held in the `RwLock` slot, `readers` is the multiset of
addresses held by live `read()` results (one entry per live `Arc` clone). -/
structure CowState (σ : Type u) where
  heap : List σ
  store : Nat
  readers : List Nat
deriving Repr, DecidableEq

/-- Well-formedness: the slot address points into the heap, and so does every
reader-held address. -/
def CowState.WF {σ : Type u} (st : CowState σ) : Prop :=
  st.store < st.heap.length ∧ ∀ a ∈ st.readers, a < st.heap.length

instance {σ : Type u} (st : CowState σ) : Decidable st.WF := by
  unfold CowState.WF; infer_instance

/-- The value of the snapshot the slot currently points to (the content every
freshly acquired view observes). -/
def currentVal {σ : Type u} [Inhabited σ] (st : CowState σ) : σ :=
  st.heap.getD st.store default

/-- Dereference a snapshot address held by a reader. -/
def readDeref {σ : Type u} (st : CowState σ) (a : Nat) : Option σ :=
  st.heap.get? a

/-- Generated `read()`: acquire the read lock, clone the `Arc` out of the
slot, release.  Returns the slot address and records the new live holder. -/
def cowRead {σ : Type u} (st : CowState σ) : Nat × CowState σ :=
  (st.store, { st with readers := st.store :: st.readers })

/-- Dropping one `read()` result for address `a` (the holder's `Arc` clone is
released). -/
def cowDrop {σ : Type u} (a : Nat) (st : CowState σ) : CowState σ :=
  { st with readers := st.readers.erase a }

/-- Generated `write(self)`: `*guard = Arc::new(self)` — allocate a fresh
snapshot holding the new value and swap it into the slot (the slot's old
`Arc` is dropped). -/
def cowWrite {σ : Type u} (v : σ) (st : CowState σ) : CowState σ :=
  { heap := st.heap ++ [v], store := st.heap.length, readers := st.readers }

/-- Semantics of `Arc::make_mut(&mut *guard)` followed by a mutation `f` of
the exposed value: when the slot's `Arc` is the only strong reference
(no live `read()` result holds the slot address) the value is mutated in
place; otherwise the inner value is cloned to a fresh allocation, the slot is
repointed there, and the mutation applies to the fresh copy (clone-on-write). -/
def cowMutate {σ : Type u} [Inhabited σ] (f : σ → σ) (st : CowState σ) : CowState σ :=
  if st.readers.count st.store = 0 then
    { st with heap := st.heap.set st.store (f (currentVal st)) }
  else
    { heap := st.heap ++ [f (currentVal st)], store := st.heap.length,
      readers := st.readers }

/-- Generated `set(field, value)` (clone variant): write-lock the slot,
`Arc::make_mut`, then `field.set(&mut s, value)`. -/
def cowSet {σ : Type u} {τ : Type v} [Inhabited σ] (F : Field σ τ) (v : τ)
    (st : CowState σ) : CowState σ :=
  cowMutate (fun s => F.set s v) st

/-- Generated `update(f)` (clone variant): write-lock the slot,
`Arc::make_mut`, then `f(s)`. -/
def cowUpdate {σ : Type u} [Inhabited σ] (f : σ → σ) (st : CowState σ) : CowState σ :=
  cowMutate f st

/-- Generated `update_async(f)` (clone variant): same lock discipline as
`update`; the mutator may suspend but the resulting state transition is the
same. -/
def cowUpdateAsync {σ : Type u} [Inhabited σ] (f : σ → σ) (st : CowState σ) : CowState σ :=
  cowMutate f st

/-- Generated `clone()` (clone variant): clone the `Arc` out of the slot,
`Arc::make_mut` on the local clone (the slot still holds a reference, so the
inner value is copied to a fresh allocation), clone the value out, drop the
temporaries.  Observationally: return the current value, cell unchanged. -/
def cowClone {σ : Type u} [Inhabited σ] (st : CowState σ) : σ :=
  currentVal st

/-- Generated `get(field, f)` (clone variant): `read()` the current snapshot,
project the field with `select_ref`, apply the caller's transform.  The
temporary `Arc` is dropped when `get` returns. -/
def cowGet {σ : Type u} {τ : Type v} {ρ : Type u} [Inhabited σ] (F : Field σ τ)
    (f : τ → ρ) (st : CowState σ) : ρ :=
  f (select_ref (currentVal st) F)

/-- Generated `select(field)` (clone variant): `read()` then
`select_ref(field).clone()`. -/
def cowSelect {σ : Type u} {τ : Type v} [Inhabited σ] (F : Field σ τ)
    (st : CowState σ) : τ :=
  select_ref (currentVal st) F

/-- Alphabet of operations on a copy-on-write cell that change its state
(`read` acquires a snapshot, `dropRef` releases one, `write` replaces the
value, `update` covers `set`, `update` and `update_async`, which all go
through `Arc::make_mut`). -/
inductive CowOp (σ : Type u) where
  | read : CowOp σ
  | dropRef : Nat → CowOp σ
  | write : σ → CowOp σ
  | update : (σ → σ) → CowOp σ

/-- One step of the copy-on-write cell. -/
def cowStep {σ : Type u} [Inhabited σ] : CowOp σ → CowState σ → CowState σ
  | .read, st => (cowRead st).2
  | .dropRef a, st => cowDrop a st
  | .write v, st => cowWrite v st
  | .update f, st => cowMutate f st

/-- Run a sequence of operations on a copy-on-write cell. -/
def cowRun {σ : Type u} [Inhabited σ] (ops : List (CowOp σ)) (st : CowState σ) :
    CowState σ :=
  ops.foldl (fun s o => cowStep o s) st

/-- Initial copy-on-write cell, produced by
`LazyLock::new(|| RwLock::new(Arc::new(S::new())))`. -/
def cowInit : CowState Scenario :=
  { heap := [Scenario.new], store := 0, readers := [] }

/-! ### In-place store cell (`static Arc<RwLock<S>>`) -/

/-- Generated `write(self)` (in-place variant): `*guard = self`. -/
def ipWrite {σ : Type u} (v : σ) (_s : σ) : σ := v

/-- Generated `get(field, f)` (in-place variant): read-lock, project the
field, apply the transform, release. -/
def ipGet {σ : Type u} {τ : Type v} {ρ : Type u} (F : Field σ τ) (f : τ → ρ)
    (s : σ) : ρ :=
  f (F.select s)

/-- Generated `set(field, value)` (in-place variant): write-lock, then
`field.set(&mut *guard, value)`. -/
def ipSet {σ : Type u} {τ : Type v} (F : Field σ τ) (v : τ) (s : σ) : σ :=
  F.set s v

/-- Generated `update(f)` (in-place variant): write-lock, then
`f(&mut *guard)`. -/
def ipUpdate {σ : Type u} (f : σ → σ) (s : σ) : σ := f s

/-- Generated `update_async(f)` (in-place variant): same as `update`, the
mutator may suspend while the lock is held. -/
def ipUpdateAsync {σ : Type u} (f : σ → σ) (s : σ) : σ := f s

/-- Initial in-place cell, produced by
`LazyLock::new(|| Arc::new(RwLock::new(S::new())))`. -/
def ipInit : Scenario := Scenario.new

/-! ### Lock acquisition and poisoning

Every generated operation acquires the cell's `RwLock` exactly once, via
`.read()` or `.write()` followed by `.expect("RWLock poisoned")`; when the
lock is poisoned the `expect` panics with that message and nothing else
happens.  The wrappers below take the poisoned flag and either abort with the
panic message or perform the pure operation. -/

/-- Diagnostic carried by every generated `expect` on lock acquisition. -/
def poisonMsg : String := "RWLock poisoned"

/-- Generated `read()` with lock acquisition. -/
def cowReadP {σ : Type u} (p : Bool) (st : CowState σ) :
    Except String (Nat × CowState σ) :=
  if p then .error poisonMsg else .ok (cowRead st)

/-- Generated `clone()` with lock acquisition. -/
def cowCloneP {σ : Type u} [Inhabited σ] (p : Bool) (st : CowState σ) :
    Except String σ :=
  if p then .error poisonMsg else .ok (cowClone st)

/-- Generated `write(self)` (clone variant) with lock acquisition. -/
def cowWriteP {σ : Type u} (p : Bool) (v : σ) (st : CowState σ) :
    Except String (CowState σ) :=
  if p then .error poisonMsg else .ok (cowWrite v st)

/-- Generated `get(field, f)` (clone variant) with lock acquisition (the one
acquisition happens inside the nested `read()`). -/
def cowGetP {σ : Type u} {τ : Type v} {ρ : Type u} [Inhabited σ] (p : Bool)
    (F : Field σ τ) (f : τ → ρ) (st : CowState σ) : Except String ρ :=
  if p then .error poisonMsg else .ok (cowGet F f st)

/-- Generated `select(field)` (clone variant) with lock acquisition. -/
def cowSelectP {σ : Type u} {τ : Type v} [Inhabited σ] (p : Bool)
    (F : Field σ τ) (st : CowState σ) : Except String τ :=
  if p then .error poisonMsg else .ok (cowSelect F st)

/-- Generated `set(field, value)` (clone variant) with lock acquisition. -/
def cowSetP {σ : Type u} {τ : Type v} [Inhabited σ] (p : Bool) (F : Field σ τ)
    (v : τ) (st : CowState σ) : Except String (CowState σ) :=
  if p then .error poisonMsg else .ok (cowSet F v st)

/-- Generated `update(f)` (clone variant) with lock acquisition. -/
def cowUpdateP {σ : Type u} [Inhabited σ] (p : Bool) (f : σ → σ)
    (st : CowState σ) : Except String (CowState σ) :=
  if p then .error poisonMsg else .ok (cowUpdate f st)

/-- Generated `update_async(f)` (clone variant) with lock acquisition. -/
def cowUpdateAsyncP {σ : Type u} [Inhabited σ] (p : Bool) (f : σ → σ)
    (st : CowState σ) : Except String (CowState σ) :=
  if p then .error poisonMsg else .ok (cowUpdateAsync f st)

/-- Generated `write(self)` (in-place variant) with lock acquisition. -/
def ipWriteP {σ : Type u} (p : Bool) (v : σ) (s : σ) : Except String σ :=
  if p then .error poisonMsg else .ok (ipWrite v s)

/-- Generated `get(field, f)` (in-place variant) with lock acquisition. -/
def ipGetP {σ : Type u} {τ : Type v} {ρ : Type u} (p : Bool) (F : Field σ τ)
    (f : τ → ρ) (s : σ) : Except String ρ :=
  if p then .error poisonMsg else .ok (ipGet F f s)

/-- Generated `set(field, value)` (in-place variant) with lock acquisition. -/
def ipSetP {σ : Type u} {τ : Type v} (p : Bool) (F : Field σ τ) (v : τ)
    (s : σ) : Except String σ :=
  if p then .error poisonMsg else .ok (ipSet F v s)

/-- Generated `update(f)` (in-place variant) with lock acquisition. -/
def ipUpdateP {σ : Type u} (p : Bool) (f : σ → σ) (s : σ) : Except String σ :=
  if p then .error poisonMsg else .ok (ipUpdate f s)

/-- Generated `update_async(f)` (in-place variant) with lock acquisition. -/
def ipUpdateAsyncP {σ : Type u} (p : Bool) (f : σ → σ) (s : σ) :
    Except String σ :=
  if p then .error poisonMsg else .ok (ipUpdateAsync f s)

/-! ### The macro itself: attribute arguments, variant choice, field
extraction -/

/-- Parsed `#[crete(...)]` attribute arguments. -/
structure CreteArgs where
  clone : Bool
deriving Repr, DecidableEq

/-- Source `struct_is_clone`: the attribute forces it, or the struct derives
`Clone`. -/
def struct_is_clone (args : CreteArgs) (derives_clone : Bool) : Bool :=
  args.clone || derives_clone

/-- The two store-cell strategies the macro can emit. -/
inductive Variant where
  | copyOnWrite : Variant
  | inPlace : Variant
deriving Repr, DecidableEq

/-- Which impl block the macro emits, following the `if struct_is_clone`
branch on the `impl_block` and `static_store` quotations. -/
def chosenVariant (args : CreteArgs) (derives_clone : Bool) : Variant :=
  if struct_is_clone args derives_clone then .copyOnWrite else .inPlace

/-- Method names present in the emitted impl block, per variant, read off
from the two `quote!` blocks. -/
def variantMethods : Variant → List String
  | .copyOnWrite =>
      ["new", "read", "clone", "write", "select_ref", "get", "select", "set",
       "update", "update_async"]
  | .inPlace =>
      ["new", "write", "select_ref", "get", "set", "update", "update_async"]

/-- Shape of the fields of a parsed struct (`syn::Fields`). -/
inductive FieldsKind where
  | named : Nat → FieldsKind
  | unnamed : Nat → FieldsKind
  | unit : FieldsKind
deriving Repr, DecidableEq

/-- Shape of a parsed item body (`syn::Data`). -/
inductive RustData where
  | dstruct : FieldsKind → RustData
  | denum : RustData
  | dunion : RustData
deriving Repr, DecidableEq

/-- Diagnostic of the macro's panic on a non-record input. -/
def namedFieldsMsg : String := "Crete can only be used with named fields"

/-- Fields extraction in `crete`: succeeds exactly on a struct with named
fields, otherwise panics at macro-expansion time. -/
def extractNamedFields : RustData → Except String Nat
  | .dstruct (.named n) => .ok n
  | _ => .error namedFieldsMsg

/-- Summary of a successful macro expansion: which store variant was wired
and how many field-selector unit structs were generated (one per field). -/
structure Expansion where
  variant : Variant
  numSelectors : Nat
deriving Repr, DecidableEq

/-- The `crete` attribute macro: extract the named fields (panicking
otherwise, before any code is emitted), then emit one selector per field and
the impl block of the chosen variant. -/
def crete (args : CreteArgs) (derives_clone : Bool) (d : RustData) :
    Except String Expansion :=
  match extractNamedFields d with
  | .ok n => .ok { variant := chosenVariant args derives_clone, numSelectors := n }
  | .error e => .error e

/-! ### Helper lemmas about the snapshot heap -/

theorem getD_concat_self {σ : Type u} (l : List σ) (v d : σ) :
    (l ++ [v]).getD l.length d = v := by
  rw [List.getD_append_right _ _ _ _ (Nat.le_refl _), Nat.sub_self]
  rfl

theorem getD_set_self {σ : Type u} (l : List σ) (i : Nat) (x d : σ)
    (h : i < l.length) : (l.set i x).getD i d = x := by
  rw [List.getD_eq_getD_get?, List.get?_set_eq_of_lt x h]
  rfl

theorem getD_set_ne {σ : Type u} (l : List σ) (i j : Nat) (x d : σ)
    (h : i ≠ j) : (l.set i x).getD j d = l.getD j d := by
  rw [List.getD_eq_getD_get?, List.get?_set_ne x l h, ← List.getD_eq_getD_get?]

/-- After `Arc::make_mut` plus mutation `f`, the slot's snapshot holds
`f` of the previous current value, in both the unique-owner and the
clone-on-write branch. -/
theorem currentVal_cowMutate {σ : Type u} [Inhabited σ] (f : σ → σ)
    (st : CowState σ) (h : st.store < st.heap.length) :
    currentVal (cowMutate f st) = f (currentVal st) := by
  unfold cowMutate
  split
  · exact getD_set_self _ _ _ _ h
  · exact getD_concat_self _ _ _

/-- Mutation keeps the slot address inside the heap. -/
theorem store_lt_cowMutate {σ : Type u} [Inhabited σ] (f : σ → σ)
    (st : CowState σ) (h : st.store < st.heap.length) :
    (cowMutate f st).store < (cowMutate f st).heap.length := by
  unfold cowMutate
  split
  · simpa using h
  · simp

/-- Mutation leaves the multiset of reader-held addresses untouched. -/
theorem readers_cowMutate {σ : Type u} [Inhabited σ] (f : σ → σ)
    (st : CowState σ) : (cowMutate f st).readers = st.readers := by
  unfold cowMutate
  split <;> rfl

theorem get?_concat_self {σ : Type u} (l : List σ) (v : σ) :
    (l ++ [v]).get? l.length = some v := by
  rw [List.get?_eq_getElem?]
  exact List.getElem?_concat_length l v

/-! ### Claims -/

/-- C2: for every field selector `F` and every value `v` of `F`'s field type,
`set(F, v)` followed by `select(F)` with no intervening writes returns a value
equal to `v`, in any store state (whose slot address points into the heap). -/
theorem C2_set_then_select_roundtrip (st : CowState Scenario)
    (h : st.store < st.heap.length) :
    (∀ v : Int, cowSelect CountField (cowSet CountField v st) = v) ∧
    (∀ w : String, cowSelect LabelField (cowSet LabelField w st) = w) := by
  constructor
  · intro v
    show CountField.select (currentVal (cowMutate (fun s => CountField.set s v) st)) = v
    rw [currentVal_cowMutate _ _ h]
    rfl
  · intro w
    show LabelField.select (currentVal (cowMutate (fun s => LabelField.set s w) st)) = w
    rw [currentVal_cowMutate _ _ h]
    rfl

/-- C2 witness: the round-trip at the initial store with value 5. -/
theorem C2_witness :
    cowInit.store < cowInit.heap.length ∧
    cowSelect CountField (cowSet CountField 5 cowInit) = 5 :=
  ⟨by decide, (C2_set_then_select_roundtrip cowInit (by decide)).1 5⟩

/-- C3: for every pair of distinct fields, `set` on one field's selector
leaves the other field's value exactly as it was, under both the
copy-on-write variant (`cowSet`) and the in-place variant (`ipSet`). -/
theorem C3_field_independence (st : CowState Scenario) (s : Scenario)
    (h : st.store < st.heap.length) :
    (∀ v : Int,
      cowSelect LabelField (cowSet CountField v st) = cowSelect LabelField st) ∧
    (∀ w : String,
      cowSelect CountField (cowSet LabelField w st) = cowSelect CountField st) ∧
    (∀ v : Int, LabelField.select (ipSet CountField v s) = LabelField.select s) ∧
    (∀ w : String, CountField.select (ipSet LabelField w s) = CountField.select s) := by
  refine ⟨fun v => ?_, fun w => ?_, fun v => rfl, fun w => rfl⟩
  · show LabelField.select (currentVal (cowMutate (fun x => CountField.set x v) st)) =
      LabelField.select (currentVal st)
    rw [currentVal_cowMutate _ _ h]
    rfl
  · show CountField.select (currentVal (cowMutate (fun x => LabelField.set x w) st)) =
      CountField.select (currentVal st)
    rw [currentVal_cowMutate _ _ h]
    rfl

/-- C3 witness: setting `count` at the initial store leaves `label` intact,
and vice versa under the in-place variant. -/
theorem C3_witness :
    cowInit.store < cowInit.heap.length ∧
    cowSelect LabelField (cowSet CountField 5 cowInit) = cowSelect LabelField cowInit :=
  ⟨by decide, (C3_field_independence cowInit Scenario.default (by decide)).1 5⟩

/-- C5: `write(new_value)` unconditionally replaces the current state object:
every subsequent read-oriented operation (`read`, `get`, `select`, `clone`)
observes `new_value` (and `read` itself does not disturb the committed
value), under both variants. -/
theorem C5_write_replaces (st : CowState Scenario) (v s : Scenario) :
    currentVal (cowWrite v st) = v ∧
    readDeref (cowRead (cowWrite v st)).2 (cowRead (cowWrite v st)).1 = some v ∧
    cowClone (cowWrite v st) = v ∧
    cowSelect CountField (cowWrite v st) = v.count ∧
    cowSelect LabelField (cowWrite v st) = v.label ∧
    (∀ (ρ : Type) (f : Int → ρ), cowGet CountField f (cowWrite v st) = f v.count) ∧
    currentVal (cowRead (cowWrite v st)).2 = v ∧
    ipWrite v s = v ∧
    (∀ (ρ : Type) (f : Int → ρ), ipGet CountField f (ipWrite v s) = f v.count) := by
  have hcur : currentVal (cowWrite v st) = v := getD_concat_self _ _ _
  refine ⟨hcur, ?_, hcur, ?_, ?_, fun ρ f => ?_, hcur, rfl, fun ρ f => rfl⟩
  · show (st.heap ++ [v]).get? st.heap.length = some v
    exact get?_concat_self _ _
  · show (currentVal (cowWrite v st)).count = v.count
    rw [hcur]
  · show (currentVal (cowWrite v st)).label = v.label
    rw [hcur]
  · show f (currentVal (cowWrite v st)).count = f v.count
    rw [hcur]

/-- C6: the copy-on-write variant (with `read` and `clone`) is emitted exactly
when the struct derives `Clone` or the attribute forces it; otherwise the
in-place variant is emitted, whose impl block has no `read`, `clone` or
`select` method. -/
theorem C6_variant_selection :
    (∀ (args : CreteArgs) (derives_clone : Bool),
        chosenVariant args derives_clone = Variant.copyOnWrite ↔
          (args.clone = true ∨ derives_clone = true)) ∧
    "read" ∈ variantMethods Variant.copyOnWrite ∧
    "clone" ∈ variantMethods Variant.copyOnWrite ∧
    "select" ∈ variantMethods Variant.copyOnWrite ∧
    "read" ∉ variantMethods Variant.inPlace ∧
    "clone" ∉ variantMethods Variant.inPlace ∧
    "select" ∉ variantMethods Variant.inPlace := by
  refine ⟨fun args d => ?_, by decide, by decide, by decide, by decide,
    by decide, by decide⟩
  rcases args with ⟨c⟩
  cases c <;> cases d <;> decide

/-- C7: applying the macro to anything that is not a struct with named fields
(tuple struct, unit struct, enum, union) is rejected at expansion time with
the panic message, before any code is emitted. -/
theorem C7_reject_non_named_fields (args : CreteArgs) (derives_clone : Bool)
    (d : RustData) (h : ∀ n, d ≠ RustData.dstruct (FieldsKind.named n)) :
    crete args derives_clone d = Except.error namedFieldsMsg := by
  cases d with
  | dstruct fk =>
    cases fk with
    | named n => exact absurd rfl (h n)
    | unnamed n => rfl
    | unit => rfl
  | denum => rfl
  | dunion => rfl

/-- C7 witness: an enum input is rejected. -/
theorem C7_witness :
    (∀ n, RustData.denum ≠ RustData.dstruct (FieldsKind.named n)) ∧
    crete ⟨false⟩ false RustData.denum = Except.error namedFieldsMsg :=
  ⟨fun _ h => RustData.noConfusion h,
   C7_reject_non_named_fields ⟨false⟩ false RustData.denum
     (fun _ h => RustData.noConfusion h)⟩

/-- C8: every store operation that acquires the cell's lock aborts with the
diagnostic `RWLock poisoned` when the lock is poisoned, committing no state,
for all of `read`, `clone`, `get`, `select`, `write`, `set`, `update` and
`update_async` under both variants. -/
theorem C8_poisoned_lock_aborts (st : CowState Scenario) (s v : Scenario)
    (f : Scenario → Scenario) (vc : Int) (g : Int → Int) :
    cowReadP true st = Except.error poisonMsg ∧
    cowCloneP true st = Except.error poisonMsg ∧
    cowWriteP true v st = Except.error poisonMsg ∧
    cowGetP true CountField g st = Except.error poisonMsg ∧
    cowSelectP true CountField st = Except.error poisonMsg ∧
    cowSetP true CountField vc st = Except.error poisonMsg ∧
    cowUpdateP true f st = Except.error poisonMsg ∧
    cowUpdateAsyncP true f st = Except.error poisonMsg ∧
    ipWriteP true v s = Except.error poisonMsg ∧
    ipGetP true CountField g s = Except.error poisonMsg ∧
    ipSetP true CountField vc s = Except.error poisonMsg ∧
    ipUpdateP true f s = Except.error poisonMsg ∧
    ipUpdateAsyncP true f s = Except.error poisonMsg :=
  ⟨rfl, rfl, rfl, rfl, rfl, rfl, rfl, rfl, rfl, rfl, rfl, rfl, rfl⟩

/-- One step of the cell neither frees nor mutates a snapshot that a live
reader still holds, provided the step does not drop that very reference; the
reference also stays live and in-heap. -/
theorem cowStep_stable {σ : Type u} [Inhabited σ] (op : CowOp σ)
    (st : CowState σ) (a : Nat) (ha : a < st.heap.length)
    (hheld : 0 < st.readers.count a) (hop : op ≠ CowOp.dropRef a) :
    a < (cowStep op st).heap.length ∧
    0 < (cowStep op st).readers.count a ∧
    (cowStep op st).heap.get? a = st.heap.get? a := by
  cases op with
  | read =>
    refine ⟨ha, ?_, rfl⟩
    show 0 < (st.store :: st.readers).count a
    rw [List.count_cons]
    omega
  | dropRef b =>
    have hab : a ≠ b := fun e => hop (by rw [e])
    refine ⟨ha, ?_, rfl⟩
    show 0 < (st.readers.erase b).count a
    rwa [List.count_erase_of_ne hab]
  | write v =>
    refine ⟨?_, hheld, ?_⟩
    · show a < (st.heap ++ [v]).length
      rw [List.length_append]
      omega
    · exact List.get?_append ha
  | update f =>
    show a < (cowMutate f st).heap.length ∧
      0 < (cowMutate f st).readers.count a ∧
      (cowMutate f st).heap.get? a = st.heap.get? a
    unfold cowMutate
    split
    · next hcount =>
      have has : st.store ≠ a := by
        intro e
        rw [e] at hcount
        omega
      exact ⟨by simpa using ha, hheld, List.get?_set_ne _ _ has⟩
    · refine ⟨?_, hheld, List.get?_append ha⟩
      show a < (st.heap ++ _).length
      rw [List.length_append]
      omega

/-- Heap stability over a run: a reader-held snapshot address keeps its
content across any sequence of operations that never drops that reference. -/
theorem cowRun_get?_stable {σ : Type u} [Inhabited σ] (ops : List (CowOp σ))
    (st : CowState σ) (a : Nat) (ha : a < st.heap.length)
    (hheld : 0 < st.readers.count a)
    (hops : ∀ op ∈ ops, op ≠ CowOp.dropRef a) :
    (cowRun ops st).heap.get? a = st.heap.get? a := by
  induction ops generalizing st with
  | nil => rfl
  | cons op ops ih =>
    have h1 := cowStep_stable op st a ha hheld (hops op (List.mem_cons_self op ops))
    have h2 := ih (cowStep op st) h1.1 h1.2.1
      (fun o ho => hops o (List.mem_cons_of_mem op ho))
    calc (cowRun (op :: ops) st).heap.get? a
        = (cowRun ops (cowStep op st)).heap.get? a := rfl
      _ = (cowStep op st).heap.get? a := h2
      _ = st.heap.get? a := h1.2.2

/-- C4: a snapshot reference returned by `read()` is unaffected by every
subsequent `write`, `set` or `update` (and by other readers coming and
going): the holder keeps observing the content current at read time; and
`read` itself only copies the current shared reference out of the slot,
changing neither the heap nor the slot. -/
theorem C4_snapshot_isolation (st : CowState Scenario)
    (ops : List (CowOp Scenario)) (h : st.store < st.heap.length)
    (hops : ∀ op ∈ ops, op ≠ CowOp.dropRef (cowRead st).1) :
    (cowRead st).1 = st.store ∧
    (cowRead st).2.heap = st.heap ∧
    (cowRead st).2.store = st.store ∧
    readDeref (cowRead st).2 (cowRead st).1 = some (currentVal st) ∧
    readDeref (cowRun ops (cowRead st).2) (cowRead st).1 = some (currentVal st) := by
  have hderef : st.heap.get? st.store = some (currentVal st) := by
    unfold currentVal
    rw [List.get?_eq_getElem?, List.getElem?_eq_getElem h,
      List.getD_eq_getElem st.heap default h]
  have hheld : 0 < (cowRead st).2.readers.count (cowRead st).1 := by
    show 0 < (st.store :: st.readers).count st.store
    rw [List.count_cons]
    simp
  have hstable := cowRun_get?_stable ops (cowRead st).2 st.store h hheld hops
  refine ⟨rfl, rfl, rfl, hderef, ?_⟩
  show (cowRun ops (cowRead st).2).heap.get? st.store = some (currentVal st)
  rw [hstable]
  exact hderef

/-- C4 witness: a reader acquired at the initial store still observes the
default value after a subsequent `write` of a different value. -/
theorem C4_witness :
    readDeref (cowRun [CowOp.write ⟨7, "x"⟩] (cowRead cowInit).2) (cowRead cowInit).1
      = some Scenario.default :=
  (C4_snapshot_isolation cowInit [CowOp.write ⟨7, "x"⟩] (by decide)
    (by intro op hop
        rw [List.mem_singleton.mp hop]
        exact fun e => CowOp.noConfusion e)).2.2.2.2

/-- Test whether an operation is an `update` call. -/
def isUpdateOp {σ : Type u} : CowOp σ → Bool
  | .update _ => true
  | _ => false

/-- The increment mutator from the claim: bump `count` by one. -/
def incCount : Scenario → Scenario := fun s => { s with count := s.count + 1 }

/-- Each committed `update(increment)` raises the current `count` by exactly
one, whatever readers come and go in between: the writer lock serializes the
updates, so a run is any sequence of these atomic steps. -/
theorem cowRun_count_increments (ops : List (CowOp Scenario))
    (st : CowState Scenario) (h : st.store < st.heap.length)
    (hops : ∀ op ∈ ops, op = CowOp.read ∨ (∃ a, op = CowOp.dropRef a) ∨
      op = CowOp.update incCount) :
    (currentVal (cowRun ops st)).count
      = (currentVal st).count + (ops.countP fun op => isUpdateOp op) := by
  revert h hops
  induction ops generalizing st with
  | nil =>
    intro h hops
    simp [cowRun]
  | cons op ops ih =>
    intro h hops
    have htail : ∀ o ∈ ops, o = CowOp.read ∨ (∃ a, o = CowOp.dropRef a) ∨
        o = CowOp.update incCount :=
      fun o ho => hops o (List.mem_cons_of_mem op ho)
    rcases hops op (List.mem_cons_self op ops) with hr | ⟨a, hd⟩ | hu
    · subst hr
      have e1 : cowRun (CowOp.read :: ops) st = cowRun ops (cowRead st).2 := rfl
      have hcva : currentVal ((cowRead st).2) = currentVal st := rfl
      rw [e1, ih (cowRead st).2 h htail, hcva, List.countP_cons]
      simp [isUpdateOp]
    · subst hd
      have e1 : cowRun (CowOp.dropRef a :: ops) st = cowRun ops (cowDrop a st) := rfl
      have hcva : currentVal (cowDrop a st) = currentVal st := rfl
      rw [e1, ih (cowDrop a st) h htail, hcva, List.countP_cons]
      simp [isUpdateOp]
    · subst hu
      have e1 : cowRun (CowOp.update incCount :: ops) st
          = cowRun ops (cowMutate incCount st) := rfl
      rw [e1, ih (cowMutate incCount st) (store_lt_cowMutate _ _ h) htail,
        currentVal_cowMutate _ _ h, List.countP_cons]
      simp [incCount, isUpdateOp]
      omega

/-- C9: for N `update` calls each incrementing `count` by 1, serialized by
the writer lock into any order and interleaved with arbitrary reads, the
final value equals the initial value plus N (no lost updates), under the
copy-on-write variant; under the in-place variant, N serialized in-place
increments likewise add N. -/
theorem C9_serialized_writers (st : CowState Scenario)
    (ops : List (CowOp Scenario)) (h : st.store < st.heap.length)
    (hops : ∀ op ∈ ops, op = CowOp.read ∨ (∃ a, op = CowOp.dropRef a) ∨
      op = CowOp.update incCount) :
    (currentVal (cowRun ops st)).count
      = (currentVal st).count + (ops.countP fun op => isUpdateOp op) ∧
    (∀ (s : Scenario) (n : Nat), ((ipUpdate incCount)^[n] s).count = s.count + n) := by
  refine ⟨cowRun_count_increments ops st h hops, fun s n => ?_⟩
  induction n with
  | zero => simp
  | succ n ih =>
    rw [Function.iterate_succ_apply']
    show (incCount ((ipUpdate incCount)^[n] s)).count = s.count + (n + 1 : Nat)
    simp [incCount]
    omega

/-- C9 witness: two increments with an interleaved read at the initial store
yield a final count of the initial count plus two. -/
theorem C9_witness :
    (currentVal (cowRun
        [CowOp.update incCount, CowOp.read, CowOp.update incCount] cowInit)).count
      = (currentVal cowInit).count
        + (([CowOp.update incCount, CowOp.read, CowOp.update incCount] :
            List (CowOp Scenario)).countP fun op => isUpdateOp op) :=
  (C9_serialized_writers cowInit
    [CowOp.update incCount, CowOp.read, CowOp.update incCount] (by decide)
    (by intro op hop
        rcases List.mem_cons.mp hop with h1 | hop
        · exact Or.inr (Or.inr h1)
        rcases List.mem_cons.mp hop with h1 | hop
        · exact Or.inl h1
        rcases List.mem_cons.mp hop with h1 | hop
        · exact Or.inr (Or.inr h1)
        · cases hop)).1

/-- C1 counterexample: with a live `read()` reference to the current snapshot
in scope, the copy-on-write `set` does not refuse and does not signal any
fatal condition — it returns successfully, having silently duplicated the
snapshot (via `Arc::make_mut`), mutated the duplicate and committed it. -/
theorem C1_counterexample :
    (cowRead cowInit).2.readers.count (cowRead cowInit).2.store = 1 ∧
    cowSetP false CountField 5 (cowRead cowInit).2 =
      Except.ok { heap := [Scenario.default, { count := 5, label := "" }],
                  store := 1, readers := [0] } ∧
    (∀ e : String, cowSetP false CountField 5 (cowRead cowInit).2 ≠ Except.error e) := by
  refine ⟨rfl, rfl, fun e he => ?_⟩
  exact Except.noConfusion ((rfl :
    cowSetP false CountField 5 (cowRead cowInit).2 =
      Except.ok { heap := [Scenario.default, { count := 5, label := "" }],
                  store := 1, readers := [0] }).symm.trans he)

/-- C1 amended: when another reference to the current snapshot is alive,
copy-on-write `set` and `update` proceed without signalling anything:
`Arc::make_mut` silently clones the snapshot into a fresh allocation, the
mutation is applied to the clone, and the clone is committed as the new
snapshot; the previously shared snapshot stays intact for its holders. -/
theorem C1_set_update_clone_on_write (st : CowState Scenario)
    (halive : st.readers.count st.store ≠ 0) (h : st.store < st.heap.length) :
    (∀ f : Scenario → Scenario,
      cowUpdateP false f st =
        Except.ok { heap := st.heap ++ [f (currentVal st)],
                    store := st.heap.length, readers := st.readers }) ∧
    (∀ v : Int,
      cowSetP false CountField v st =
        Except.ok { heap := st.heap ++ [CountField.set (currentVal st) v],
                    store := st.heap.length, readers := st.readers }) ∧
    (∀ w : String,
      cowSetP false LabelField w st =
        Except.ok { heap := st.heap ++ [LabelField.set (currentVal st) w],
                    store := st.heap.length, readers := st.readers }) ∧
    (∀ f : Scenario → Scenario,
      readDeref (cowUpdate f st) st.store = readDeref st st.store) := by
  have hmut : ∀ f : Scenario → Scenario, cowMutate f st =
      { heap := st.heap ++ [f (currentVal st)], store := st.heap.length,
        readers := st.readers } := by
    intro f
    unfold cowMutate
    rw [if_neg halive]
  refine ⟨fun f => ?_, fun v => ?_, fun w => ?_, fun f => ?_⟩
  · show Except.ok (cowMutate f st) = _
    rw [hmut]
  · show Except.ok (cowMutate (fun s => CountField.set s v) st) = _
    rw [hmut]
  · show Except.ok (cowMutate (fun s => LabelField.set s w) st) = _
    rw [hmut]
  · show (cowMutate f st).heap.get? st.store = st.heap.get? st.store
    rw [hmut]
    exact List.get?_append h

/-- C1 amended witness: at the initial store with one live reader, `set`
succeeds and commits a fresh mutated snapshot. -/
theorem C1_amended_witness :
    (cowRead cowInit).2.readers.count (cowRead cowInit).2.store ≠ 0 ∧
    cowSetP false CountField 6 (cowRead cowInit).2 =
      Except.ok { heap := (cowRead cowInit).2.heap ++
                    [CountField.set (currentVal (cowRead cowInit).2) 6],
                  store := (cowRead cowInit).2.heap.length,
                  readers := (cowRead cowInit).2.readers } :=
  ⟨by decide,
   (C1_set_update_clone_on_write (cowRead cowInit).2 (by decide) (by decide)).2.1 6⟩

/-- C10: before the first write-oriented operation, every read-oriented
operation observes `default()`: the lazily created cell starts from
`new() = default()` under both variants. -/
theorem C10_initialized_to_default :
    Scenario.new = Scenario.default ∧
    currentVal cowInit = Scenario.default ∧
    readDeref (cowRead cowInit).2 (cowRead cowInit).1 = some Scenario.default ∧
    cowClone cowInit = Scenario.default ∧
    cowSelect CountField cowInit = 0 ∧
    cowSelect LabelField cowInit = "" ∧
    (∀ (ρ : Type) (f : Int → ρ), cowGet CountField f cowInit = f 0) ∧
    ipInit = Scenario.default ∧
    (∀ (ρ : Type) (f : Int → ρ), ipGet CountField f ipInit = f 0) :=
  ⟨rfl, rfl, rfl, rfl, rfl, rfl, fun _ _ => rfl, rfl, fun _ _ => rfl⟩

end Crete
